import Mathlib

/-!
Verification of the backdrop package (backdrop.go): a message-passing store
that maps an abstract request identity to an immutable context chain built
with WithCancel and WithValue. The worker loop owns the global map
contexts; the public calls Get, Set, GetContext, SetContext and Evict
each send one message and block for one reply. With one worker the loop
processes messages sequentially, so each public call is embedded as a
function on the store state. The shutdown protocol (startBackdrop, worker
halt channels, Stop) is embedded separately as a small transition system.
-/

namespace Backdrop

/-- Keys passed by callers (Go interface values compared by equality). The
code itself only ever installs the int constant cancelKey; callers pass
arbitrary comparable values, modelled as integers or strings. -/
inductive Key where
  | int : Int → Key
  | str : String → Key
deriving DecidableEq

/-- Values stored under a key. A Go context.CancelFunc is identified by the
id of the WithCancel node it cancels. A Go nil interface value is modelled
as Option.none at use sites, so Val holds only the non-nil values. -/
inductive Val where
  | int : Int → Val
  | str : String → Val
  | cancelFunc : Nat → Val
deriving DecidableEq

/-- The Go type assertion v.(context.CancelFunc) succeeds on exactly these. -/
def Val.isCancelFunc : Val → Bool
  | .cancelFunc _ => true
  | _ => false

/-- workerDoneKey int = iota: the first int constant, 0 (backdrop.go:48). -/
def workerDoneKey : Key := Key.int 0

/-- cancelKey: the second iota constant, the plain int 1 (backdrop.go:50). -/
def cancelKey : Key := Key.int 1

/-- Context chains as the code builds them: context.Background, WithCancel
(carrying a fresh cancellation id) and WithValue (a nil stored value is
Option.none). -/
inductive Ctx where
  | background : Ctx
  | withCancel (parent : Ctx) (cancelId : Nat) : Ctx
  | withValue (parent : Ctx) (key : Key) (val : Option Val) : Ctx
deriving DecidableEq

/-- ctx.Value(k): the nearest binding along parent links wins; WithCancel
nodes delegate to their parent; Background resolves everything to nil. -/
def Ctx.value : Ctx → Key → Option Val
  | .background, _ => none
  | .withCancel p _, k => p.value k
  | .withValue p k v, k2 => if k2 = k then v else p.value k2

/-- Whether the Done channel of a chain is closed, given the list of fired
cancellation ids: a WithCancel node is done when it or any ancestor fired. -/
def Ctx.doneFires : Ctx → List Nat → Bool
  | .background, _ => false
  | .withCancel p n, cs => cs.contains n || p.doneFires cs
  | .withValue p _ _, cs => p.doneFires cs

/-- The global map contexts: request identities (abstract comparable tokens,
modelled as Nat) to stored chains. A stored Go nil context is Option.none
in the codomain; a missing key is none at the outer level. -/
abbrev CtxMap := List (Nat × Option Ctx)

def mapLookup : CtxMap → Nat → Option (Option Ctx)
  | [], _ => none
  | (r2, c) :: rest, r => if r = r2 then some c else mapLookup rest r

def mapInsert : CtxMap → Nat → Option Ctx → CtxMap
  | [], r, c => [(r, c)]
  | (r2, c2) :: rest, r, c =>
    if r = r2 then (r, c) :: rest else (r2, c2) :: mapInsert rest r c

def mapErase : CtxMap → Nat → CtxMap
  | [], _ => []
  | (r2, c2) :: rest, r =>
    if r2 = r then mapErase rest r else (r2, c2) :: mapErase rest r

/-- The mutable state the worker owns: the contexts map, the set of fired
cancellation ids, and a supply of fresh ids for context.WithCancel. -/
structure StoreState where
  contexts : CtxMap
  cancelled : List Nat
  nextCancelId : Nat
deriving DecidableEq

/-- The store state right after startBackdrop: an empty contexts map. -/
def emptyStore : StoreState := ⟨[], [], 0⟩

/-- Worker case fetchCtx (backdrop.go:256-270): reply with the stored chain
if one exists and is non-nil; otherwise derive a cancellable chain from the
base context, stash its cancel function under cancelKey, store and reply.
The reply channel carries a nilable context, hence Option Ctx. -/
def fetchCtxOp (base : Ctx) (s : StoreState) (r : Nat) : Option Ctx × StoreState :=
  match mapLookup s.contexts r with
  | some (some c) => (some c, s)
  | _ =>
    let n := s.nextCancelId
    let c := Ctx.withValue (Ctx.withCancel base n) cancelKey (some (Val.cancelFunc n))
    (some c, { s with contexts := mapInsert s.contexts r (some c), nextCancelId := n + 1 })

/-- Worker case fetch (backdrop.go:272-279): reply with ctx.Value(key) when
a non-nil chain is stored, else reply nil. No state change. -/
def fetchOp (s : StoreState) (r : Nat) (k : Key) : Option Val :=
  match mapLookup s.contexts r with
  | some (some c) => c.value k
  | _ => none

/-- Worker case kill (backdrop.go:281-299): if a non-nil chain is stored and
its cancelKey value type-asserts to a CancelFunc, fire it, wait on the
Done channel of the chain, then delete the entry; in every other case leave
the state alone. The reply is always nil. The result is none when the wait
on Done would block forever (the fired id does not cancel this chain). -/
def killOp (s : StoreState) (r : Nat) : Option StoreState :=
  match mapLookup s.contexts r with
  | some (some c) =>
    match c.value cancelKey with
    | some (Val.cancelFunc n) =>
      let cs := n :: s.cancelled
      if c.doneFires cs then
        some { s with cancelled := cs, contexts := mapErase s.contexts r }
      else
        none
    | _ => some s
  | _ => some s

/-- Worker case setCtx (backdrop.go:301-306): overwrite the stored chain
only when an entry already exists; the reply is always nil. -/
def setCtxOp (s : StoreState) (r : Nat) (c : Option Ctx) : StoreState :=
  match mapLookup s.contexts r with
  | some _ => { s with contexts := mapInsert s.contexts r c }
  | none => s

/-- Worker case set (backdrop.go:308-328): when a non-nil chain is stored,
derive WithValue(chain, key, value), store and reply with it; otherwise
build WithValue(WithValue(WithCancel(base), key, value), cancelKey, cancel)
with a fresh cancel function, store and reply with it. The reply channel
carries an interface value, hence Option Ctx; both branches send non-nil. -/
def setOp (base : Ctx) (s : StoreState) (r : Nat) (k : Key) (v : Option Val) :
    Option Ctx × StoreState :=
  match mapLookup s.contexts r with
  | some (some c) =>
    let c2 := Ctx.withValue c k v
    (some c2, { s with contexts := mapInsert s.contexts r (some c2) })
  | _ =>
    let n := s.nextCancelId
    let c2 := Ctx.withValue (Ctx.withValue (Ctx.withCancel base n) k v)
      cancelKey (some (Val.cancelFunc n))
    (some c2, { s with contexts := mapInsert s.contexts r (some c2), nextCancelId := n + 1 })

/-- The three public error values of the package. -/
inductive BErr where
  | settingToBackdrop
  | gettingFromBackdrop
  | evictingFromBackdrop
deriving DecidableEq

/-- The pair (value, error) Get returns: either a non-nil value with a nil
error, or a nil value with an error. -/
inductive GetResult where
  | error (e : BErr)
  | ok (v : Val)
deriving DecidableEq

/-- Get (backdrop.go:189-201): send a fetch message, read the reply; a nil
reply becomes ErrGettingFromBackdrop, anything else is the value. -/
def Get (s : StoreState) (r : Nat) (k : Key) : GetResult :=
  match fetchOp s r k with
  | none => .error .gettingFromBackdrop
  | some v => .ok v

/-- Set (backdrop.go:174-186): send a set message; a nil reply becomes
ErrSettingToBackdrop, a non-nil reply is success. -/
def Set (base : Ctx) (s : StoreState) (r : Nat) (k : Key) (v : Option Val) :
    Option BErr × StoreState :=
  match setOp base s r k v with
  | (none, s2) => (some .settingToBackdrop, s2)
  | (some _, s2) => (none, s2)

/-- GetContext (backdrop.go:153-160): send a fetchCtx message and return the
replied chain as-is. -/
def GetContext (base : Ctx) (s : StoreState) (r : Nat) : Option Ctx × StoreState :=
  fetchCtxOp base s r

/-- SetContext (backdrop.go:163-171): send a setCtx message; the worker
always replies nil, which SetContext returns as the error. -/
def SetContext (s : StoreState) (r : Nat) (c : Option Ctx) : Option BErr × StoreState :=
  (none, setCtxOp s r c)

/-- Evict (backdrop.go:143-150): send a kill message and return the replied
error, which the worker always sends as nil. The result is none when the
worker blocks forever inside the kill case and never replies. -/
def Evict (s : StoreState) (r : Nat) : Option (Option BErr × StoreState) :=
  match killOp s r with
  | some s2 => some (none, s2)
  | none => none

theorem mapLookup_insert_self (m : CtxMap) (r : Nat) (c : Option Ctx) :
    mapLookup (mapInsert m r c) r = some c := by
  induction m with
  | nil => simp [mapInsert, mapLookup]
  | cons hd tl ih =>
    obtain ⟨r2, c2⟩ := hd
    by_cases h : r = r2
    · simp [mapInsert, mapLookup, h]
    · simp [mapInsert, mapLookup, h, ih]

theorem mapLookup_erase_self (m : CtxMap) (r : Nat) :
    mapLookup (mapErase m r) r = none := by
  induction m with
  | nil => rfl
  | cons hd tl ih =>
    obtain ⟨r2, c2⟩ := hd
    by_cases h : r2 = r
    · simpa [mapErase, h] using ih
    · have h2 : ¬ r = r2 := fun hh => h hh.symm
      simp [mapErase, mapLookup, h, h2, ih]

/-- A demonstration store: one Set of key "x" to "v" for identity 9 against
the empty store, which creates the entry with cancel id 0. -/
def demoStore : StoreState :=
  (Set Ctx.background emptyStore 9 (Key.str "x") (some (Val.str "v"))).2

/-- The chain demoStore holds for identity 9. -/
def demoChain : Ctx :=
  Ctx.withValue (Ctx.withValue (Ctx.withCancel Ctx.background 0)
    (Key.str "x") (some (Val.str "v"))) cancelKey (some (Val.cancelFunc 0))

/-- demoStore with the cancellation handle of identity 9 shadowed by a
subsequent Set of the caller key int 1 to the plain string "w". -/
def shadowStore : StoreState :=
  (Set Ctx.background demoStore 9 (Key.int 1) (some (Val.str "w"))).2

/-- C4: SetContext on an identity with no entry changes nothing, reports a
nil error, and a subsequent Get still returns NotFound for every key. -/
theorem c4_confirmed (s : StoreState) (r : Nat) (oc : Option Ctx)
    (h : mapLookup s.contexts r = none) :
    SetContext s r oc = (none, s) ∧
    ∀ k, Get s r k = GetResult.error BErr.gettingFromBackdrop := by
  constructor
  · simp [SetContext, setCtxOp, h]
  · intro k
    simp [Get, fetchOp, h]

/-- C4 witness: the empty store, identity 2, an arbitrary chain. -/
theorem c4_confirmed_witness :
    mapLookup emptyStore.contexts 2 = none ∧
    (SetContext emptyStore 2 (some Ctx.background) = (none, emptyStore) ∧
      ∀ k, Get emptyStore 2 k = GetResult.error BErr.gettingFromBackdrop) :=
  ⟨rfl, c4_confirmed emptyStore 2 (some Ctx.background) rfl⟩

/-- C5: Evict reports a nil error and leaves the whole state unchanged in
the no-op cases: no entry for the identity, a nil stored chain, or a stored
chain whose cancelKey value is not a cancellation function. -/
theorem c5_confirmed (s : StoreState) (r : Nat)
    (h : mapLookup s.contexts r = none ∨ mapLookup s.contexts r = some none ∨
      ∃ c, mapLookup s.contexts r = some (some c) ∧
        ∀ n, c.value cancelKey ≠ some (Val.cancelFunc n)) :
    Evict s r = some (none, s) := by
  rcases h with h | h | ⟨c, hc, hn⟩
  · simp [Evict, killOp, h]
  · simp [Evict, killOp, h]
  · rcases hv : c.value cancelKey with _ | v
    · simp [Evict, killOp, hc, hv]
    · rcases v with i | t | n
      · simp [Evict, killOp, hc, hv]
      · simp [Evict, killOp, hc, hv]
      · exact absurd hv (hn n)

/-- C5 witness: evicting the never-seen identity 3 from the empty store. -/
theorem c5_confirmed_witness :
    (mapLookup emptyStore.contexts 3 = none ∨
      mapLookup emptyStore.contexts 3 = some none ∨
      ∃ c, mapLookup emptyStore.contexts 3 = some (some c) ∧
        ∀ n, c.value cancelKey ≠ some (Val.cancelFunc n)) ∧
    Evict emptyStore 3 = some (none, emptyStore) :=
  ⟨Or.inl rfl, c5_confirmed emptyStore 3 (Or.inl rfl)⟩

/-- C6: GetContext never replies a nil chain, a second call with no
intervening operation returns the same chain and state, and on a fresh
identity the reply is a new cancellable chain derived from the base scope
with its cancel function stored under cancelKey. -/
theorem c6_confirmed (base : Ctx) (s : StoreState) (r : Nat) :
    (GetContext base s r).1 ≠ none ∧
    GetContext base (GetContext base s r).2 r = GetContext base s r ∧
    (mapLookup s.contexts r = none →
      (GetContext base s r).1 =
        some (Ctx.withValue (Ctx.withCancel base s.nextCancelId) cancelKey
          (some (Val.cancelFunc s.nextCancelId)))) := by
  rcases hm : mapLookup s.contexts r with _ | oc
  · refine ⟨?_, ?_, ?_⟩ <;>
      simp [GetContext, fetchCtxOp, hm, mapLookup_insert_self]
  · rcases oc with _ | c
    · refine ⟨?_, ?_, ?_⟩ <;>
        simp [GetContext, fetchCtxOp, hm, mapLookup_insert_self]
    · refine ⟨?_, ?_, ?_⟩ <;> simp [GetContext, fetchCtxOp, hm]

/-- C6 witness: GetContext on identity 4 of the empty store. -/
theorem c6_confirmed_witness :
    (GetContext Ctx.background emptyStore 4).1 ≠ none ∧
    GetContext Ctx.background (GetContext Ctx.background emptyStore 4).2 4 =
      GetContext Ctx.background emptyStore 4 ∧
    (mapLookup emptyStore.contexts 4 = none →
      (GetContext Ctx.background emptyStore 4).1 =
        some (Ctx.withValue (Ctx.withCancel Ctx.background emptyStore.nextCancelId)
          cancelKey (some (Val.cancelFunc emptyStore.nextCancelId)))) :=
  c6_confirmed Ctx.background emptyStore 4

/-- C7: the set worker case always replies with a non-nil chain, so Set
always returns a nil error and its ErrSettingToBackdrop branch is
unreachable while the store is running. -/
theorem c7_confirmed (base : Ctx) (s : StoreState) (r : Nat) (k : Key)
    (v : Option Val) :
    (setOp base s r k v).1 ≠ none ∧ (Set base s r k v).1 = none := by
  rcases hm : mapLookup s.contexts r with _ | oc
  · constructor <;> simp [Set, setOp, hm]
  · rcases oc with _ | c
    · constructor <;> simp [Set, setOp, hm]
    · constructor <;> simp [Set, setOp, hm]

/-- C8: the internal cancellation-handle key is the plain int 1 in the same
key space callers use; for a fresh identity, after GetContext or after any
Set, Get of key 1 returns the stored cancellation function rather than
NotFound. -/
theorem c8_confirmed (base : Ctx) (s : StoreState) (r : Nat)
    (h : mapLookup s.contexts r = none) :
    cancelKey = Key.int 1 ∧
    Get (GetContext base s r).2 r (Key.int 1) =
      GetResult.ok (Val.cancelFunc s.nextCancelId) ∧
    ∀ k v, Get (Set base s r k v).2 r (Key.int 1) =
      GetResult.ok (Val.cancelFunc s.nextCancelId) := by
  refine ⟨rfl, ?_, ?_⟩
  · simp [Get, fetchOp, GetContext, fetchCtxOp, h, mapLookup_insert_self,
      Ctx.value, cancelKey]
  · intro k v
    simp [Get, fetchOp, Set, setOp, h, mapLookup_insert_self, Ctx.value, cancelKey]

/-- C8 witness: the never-seen identity 4 of the empty store, with the Set
part instantiated at key "k" and value 5. -/
theorem c8_confirmed_witness :
    mapLookup emptyStore.contexts 4 = none ∧
    (cancelKey = Key.int 1 ∧
      Get (GetContext Ctx.background emptyStore 4).2 4 (Key.int 1) =
        GetResult.ok (Val.cancelFunc emptyStore.nextCancelId) ∧
      ∀ k v, Get (Set Ctx.background emptyStore 4 k v).2 4 (Key.int 1) =
        GetResult.ok (Val.cancelFunc emptyStore.nextCancelId)) :=
  ⟨rfl, c8_confirmed Ctx.background emptyStore 4 rfl⟩

/-- C9: on an identity with an existing entry, Set of key int 1 to a value
that is not a cancellation function shadows the internal handle: Set
reports success, Evict afterwards reports success but fires nothing and
leaves the state unchanged with the entry still present, and every other
key still resolves to its stored value. -/
theorem c9_confirmed (base : Ctx) (s : StoreState) (r : Nat) (c : Ctx) (w : Val)
    (h1 : mapLookup s.contexts r = some (some c))
    (h2 : w.isCancelFunc = false) :
    (Set base s r (Key.int 1) (some w)).1 = none ∧
    Evict (Set base s r (Key.int 1) (some w)).2 r =
      some (none, (Set base s r (Key.int 1) (some w)).2) ∧
    mapLookup (Set base s r (Key.int 1) (some w)).2.contexts r =
      some (some (Ctx.withValue c (Key.int 1) (some w))) ∧
    ∀ k, k ≠ Key.int 1 →
      Get (Set base s r (Key.int 1) (some w)).2 r k = Get s r k := by
  refine ⟨?_, ?_, ?_, ?_⟩
  · simp [Set, setOp, h1]
  · rcases w with i | t | n
    · simp [Evict, killOp, Set, setOp, h1, mapLookup_insert_self, Ctx.value, cancelKey]
    · simp [Evict, killOp, Set, setOp, h1, mapLookup_insert_self, Ctx.value, cancelKey]
    · simp [Val.isCancelFunc] at h2
  · simp [Set, setOp, h1, mapLookup_insert_self]
  · intro k hk
    simp [Get, fetchOp, Set, setOp, h1, mapLookup_insert_self, Ctx.value, hk]

/-- C9 witness: identity 9 of demoStore, whose handle is shadowed by the
string "w"; key "x" still resolves to "v" after the failed eviction. -/
theorem c9_confirmed_witness :
    mapLookup demoStore.contexts 9 = some (some demoChain) ∧
    (Val.str "w").isCancelFunc = false ∧
    ((Set Ctx.background demoStore 9 (Key.int 1) (some (Val.str "w"))).1 = none ∧
      Evict (Set Ctx.background demoStore 9 (Key.int 1) (some (Val.str "w"))).2 9 =
        some (none, (Set Ctx.background demoStore 9 (Key.int 1) (some (Val.str "w"))).2) ∧
      mapLookup (Set Ctx.background demoStore 9 (Key.int 1) (some (Val.str "w"))).2.contexts 9 =
        some (some (Ctx.withValue demoChain (Key.int 1) (some (Val.str "w")))) ∧
      ∀ k, k ≠ Key.int 1 →
        Get (Set Ctx.background demoStore 9 (Key.int 1) (some (Val.str "w"))).2 9 k =
          Get demoStore 9 k) :=
  ⟨by decide, by decide,
    c9_confirmed Ctx.background demoStore 9 demoChain (Val.str "w")
      (by decide) (by decide)⟩

/-- C1 counterexample: on the never-seen identity 7, Set of key int 1 to
the string "a" succeeds, yet an immediate Get of the same key returns the
freshly installed cancellation function, not "a" — the create branch of the
set worker case stacks the cancelKey binding on top of the caller write. -/
theorem c1_counterexample :
    (Set Ctx.background emptyStore 7 (Key.int 1) (some (Val.str "a"))).1 = none ∧
    Get (Set Ctx.background emptyStore 7 (Key.int 1) (some (Val.str "a"))).2 7
      (Key.int 1) = GetResult.ok (Val.cancelFunc 0) ∧
    GetResult.ok (Val.cancelFunc 0) ≠ GetResult.ok (Val.str "a") := by
  refine ⟨by decide, by decide, by decide⟩

/-- Both branches of the set worker case store a chain for the identity. -/
theorem set_entry_exists (base : Ctx) (s : StoreState) (r : Nat) (k : Key)
    (v : Option Val) :
    ∃ c, mapLookup (Set base s r k v).2.contexts r = some (some c) := by
  rcases hm : mapLookup s.contexts r with _ | oc
  · refine ⟨Ctx.withValue (Ctx.withValue (Ctx.withCancel base s.nextCancelId) k v)
      cancelKey (some (Val.cancelFunc s.nextCancelId)), ?_⟩
    simp [Set, setOp, hm, mapLookup_insert_self]
  · rcases oc with _ | c
    · refine ⟨Ctx.withValue (Ctx.withValue (Ctx.withCancel base s.nextCancelId) k v)
        cancelKey (some (Val.cancelFunc s.nextCancelId)), ?_⟩
      simp [Set, setOp, hm, mapLookup_insert_self]
    · refine ⟨Ctx.withValue c k v, ?_⟩
      simp [Set, setOp, hm, mapLookup_insert_self]

/-- C1 amended: after Set(id, k, v) succeeds, Get(id, k) returns v whenever
the identity already had a stored chain or k is not the internal cancel key
int 1; and unconditionally, for every key and every prior state, a second
Set of the same key wins (the second Set succeeds and Get returns the
second value). -/
theorem c1_amended (base : Ctx) (s : StoreState) (r : Nat) (k : Key)
    (v v1 v2 : Val) :
    ((k ≠ cancelKey ∨ ∃ c, mapLookup s.contexts r = some (some c)) →
      (Set base s r k (some v)).1 = none ∧
      Get (Set base s r k (some v)).2 r k = GetResult.ok v) ∧
    (Set base (Set base s r k (some v1)).2 r k (some v2)).1 = none ∧
    Get (Set base (Set base s r k (some v1)).2 r k (some v2)).2 r k =
      GetResult.ok v2 := by
  have hlast : ∀ w : Val, ∀ s2 : StoreState, ∀ c : Ctx,
      mapLookup s2.contexts r = some (some c) →
      Get (Set base s2 r k (some w)).2 r k = GetResult.ok w := by
    intro w s2 c hc
    simp [Get, fetchOp, Set, setOp, hc, mapLookup_insert_self, Ctx.value]
  obtain ⟨c1, hc1⟩ := set_entry_exists base s r k (some v1)
  have hsucc2 : (Set base (Set base s r k (some v1)).2 r k (some v2)).1 = none := by
    rcases hm : mapLookup s.contexts r with _ | oc
    · simp [Set, setOp, hm, mapLookup_insert_self]
    · rcases oc with _ | c
      · simp [Set, setOp, hm, mapLookup_insert_self]
      · simp [Set, setOp, hm, mapLookup_insert_self]
  refine ⟨?_, hsucc2, hlast v2 _ c1 hc1⟩
  rintro (hk | ⟨c, hc⟩)
  · rcases hm : mapLookup s.contexts r with _ | oc
    · refine ⟨by simp [Set, setOp, hm], ?_⟩
      simp [Get, fetchOp, Set, setOp, hm, mapLookup_insert_self, Ctx.value, hk]
    · rcases oc with _ | c
      · refine ⟨by simp [Set, setOp, hm], ?_⟩
        simp [Get, fetchOp, Set, setOp, hm, mapLookup_insert_self, Ctx.value, hk]
      · exact ⟨by simp [Set, setOp, hm], hlast v s c hm⟩
  · exact ⟨by simp [Set, setOp, hc], hlast v s c hc⟩

/-- C1 witness: identity 1 of the empty store with the caller key "u",
values "a" then "b"; the first Get returns "a" with the proviso discharged
by the key being distinct from int 1, and the second Get returns "b". -/
theorem c1_amended_witness :
    ((Set Ctx.background emptyStore 1 (Key.str "u") (some (Val.str "a"))).1 = none ∧
      Get (Set Ctx.background emptyStore 1 (Key.str "u") (some (Val.str "a"))).2 1
        (Key.str "u") = GetResult.ok (Val.str "a")) ∧
    (Set Ctx.background
      (Set Ctx.background emptyStore 1 (Key.str "u") (some (Val.str "a"))).2 1
      (Key.str "u") (some (Val.str "b"))).1 = none ∧
    Get (Set Ctx.background
      (Set Ctx.background emptyStore 1 (Key.str "u") (some (Val.str "a"))).2 1
      (Key.str "u") (some (Val.str "b"))).2 1 (Key.str "u") =
        GetResult.ok (Val.str "b") :=
  have h := c1_amended Ctx.background emptyStore 1 (Key.str "u") (Val.str "a")
    (Val.str "a") (Val.str "b")
  ⟨h.1 (Or.inl (by decide)), h.2.1, h.2.2⟩

/-- C2 counterexample: Set of key int 1 to nil on the never-seen identity 5
succeeds, yet Get of that key is not NotFound — it returns the cancellation
function installed above the nil binding when the entry was created. -/
theorem c2_counterexample :
    (Set Ctx.background emptyStore 5 (Key.int 1) none).1 = none ∧
    Get (Set Ctx.background emptyStore 5 (Key.int 1) none).2 5 (Key.int 1) =
      GetResult.ok (Val.cancelFunc 0) ∧
    GetResult.ok (Val.cancelFunc 0) ≠
      GetResult.error BErr.gettingFromBackdrop := by
  refine ⟨by decide, by decide, by decide⟩

/-- C2 amended: Get fails with NotFound exactly when no non-nil chain is
stored for the identity or the chain resolves the key to nil; in particular
it fails on every identity with no entry; and after Set(id, k, nil)
succeeds, Get(id, k) returns NotFound whenever the entry already existed,
or for any prior state whenever k is not the internal cancel key int 1. -/
theorem c2_amended (s : StoreState) (r : Nat) (k : Key) :
    (Get s r k = GetResult.error BErr.gettingFromBackdrop ↔
      ((∀ c, mapLookup s.contexts r ≠ some (some c)) ∨
        ∃ c, mapLookup s.contexts r = some (some c) ∧ c.value k = none)) ∧
    (mapLookup s.contexts r = none →
      Get s r k = GetResult.error BErr.gettingFromBackdrop) ∧
    (∀ base c, mapLookup s.contexts r = some (some c) →
      Get (Set base s r k none).2 r k =
        GetResult.error BErr.gettingFromBackdrop) ∧
    (∀ base, k ≠ cancelKey →
      Get (Set base s r k none).2 r k =
        GetResult.error BErr.gettingFromBackdrop) := by
  refine ⟨?_, ?_, ?_, ?_⟩
  · rcases hm : mapLookup s.contexts r with _ | oc
    · simp [Get, fetchOp, hm]
    · rcases oc with _ | c
      · simp [Get, fetchOp, hm]
      · rcases hv : c.value k with _ | v
        · simp [Get, fetchOp, hm, hv]
        · constructor
          · intro hg
            simp [Get, fetchOp, hm, hv] at hg
          · rintro (hall | ⟨c2, hc2, hv2⟩)
            · exact absurd rfl (hall c)
            · have hcc : c = c2 := by simpa using hc2
              subst hcc
              rw [hv] at hv2
              cases hv2
  · intro h
    simp [Get, fetchOp, h]
  · intro base c hc
    simp [Get, fetchOp, Set, setOp, hc, mapLookup_insert_self, Ctx.value]
  · intro base hk
    rcases hm : mapLookup s.contexts r with _ | oc
    · simp [Get, fetchOp, Set, setOp, hm, mapLookup_insert_self, Ctx.value, hk]
    · rcases oc with _ | c
      · simp [Get, fetchOp, Set, setOp, hm, mapLookup_insert_self, Ctx.value, hk]
      · simp [Get, fetchOp, Set, setOp, hm, mapLookup_insert_self, Ctx.value]

/-- C2 witness: the empty store, identity 5, caller key "k". -/
theorem c2_amended_witness :
    (Get emptyStore 5 (Key.str "k") = GetResult.error BErr.gettingFromBackdrop ↔
      ((∀ c, mapLookup emptyStore.contexts 5 ≠ some (some c)) ∨
        ∃ c, mapLookup emptyStore.contexts 5 = some (some c) ∧
          c.value (Key.str "k") = none)) ∧
    (mapLookup emptyStore.contexts 5 = none →
      Get emptyStore 5 (Key.str "k") = GetResult.error BErr.gettingFromBackdrop) ∧
    (∀ base c, mapLookup emptyStore.contexts 5 = some (some c) →
      Get (Set base emptyStore 5 (Key.str "k") none).2 5 (Key.str "k") =
        GetResult.error BErr.gettingFromBackdrop) ∧
    (∀ base, Key.str "k" ≠ cancelKey →
      Get (Set base emptyStore 5 (Key.str "k") none).2 5 (Key.str "k") =
        GetResult.error BErr.gettingFromBackdrop) :=
  c2_amended emptyStore 5 (Key.str "k")

/-- C3 counterexample: in shadowStore the stored entry for identity 9 has
its handle shadowed by the string "w"; Evict reports success but removes
nothing and fires nothing, and Get of key "x" still returns "v" instead of
NotFound. -/
theorem c3_counterexample :
    Evict shadowStore 9 = some (none, shadowStore) ∧
    mapLookup shadowStore.contexts 9 =
      some (some (Ctx.withValue demoChain (Key.int 1) (some (Val.str "w")))) ∧
    shadowStore.cancelled = [] ∧
    Get shadowStore 9 (Key.str "x") = GetResult.ok (Val.str "v") ∧
    GetResult.ok (Val.str "v") ≠ GetResult.error BErr.gettingFromBackdrop := by
  refine ⟨by decide, by decide, by decide, by decide, by decide⟩

/-- C3 amended: for every identity whose stored chain resolves cancelKey to
a cancellation function that cancels the chain itself (as every chain the
store builds does, until key 1 is overwritten), Evict fires that
cancellation, removes the entry, reports a nil error, and Get afterwards
returns NotFound for every key. -/
theorem c3_amended (s : StoreState) (r : Nat) (c : Ctx) (n : Nat)
    (h1 : mapLookup s.contexts r = some (some c))
    (h2 : c.value cancelKey = some (Val.cancelFunc n))
    (h3 : c.doneFires (n :: s.cancelled) = true) :
    ∃ s2, Evict s r = some (none, s2) ∧ n ∈ s2.cancelled ∧
      mapLookup s2.contexts r = none ∧
      ∀ k, Get s2 r k = GetResult.error BErr.gettingFromBackdrop := by
  refine ⟨⟨mapErase s.contexts r, n :: s.cancelled, s.nextCancelId⟩, ?_, ?_, ?_, ?_⟩
  · simp [Evict, killOp, h1, h2, h3]
  · exact List.mem_cons_self n s.cancelled
  · exact mapLookup_erase_self s.contexts r
  · intro k
    simp [Get, fetchOp, mapLookup_erase_self]

/-- C3 witness: identity 9 of demoStore, whose chain carries its own cancel
function with id 0. -/
theorem c3_amended_witness :
    mapLookup demoStore.contexts 9 = some (some demoChain) ∧
    demoChain.value cancelKey = some (Val.cancelFunc 0) ∧
    demoChain.doneFires (0 :: demoStore.cancelled) = true ∧
    (∃ s2, Evict demoStore 9 = some (none, s2) ∧ 0 ∈ s2.cancelled ∧
      mapLookup s2.contexts 9 = none ∧
      ∀ k, Get s2 9 k = GetResult.error BErr.gettingFromBackdrop) :=
  ⟨by decide, by decide, by decide,
    c3_amended demoStore 9 demoChain 0 (by decide) (by decide) (by decide)⟩

/-- The shutdown protocol of startBackdrop (backdrop.go:204-244) and the
worker loop: numWorkers workers share the message channels; pending counts
messages already enqueued by blocked callers; cancelFired is the root
cancellation done() fires inside Stop; halted counts workers that received
their halt signal, broke out of the loop and sent true on the stopped
channel; acks counts values buffered in the stopped channel; acksRead
counts the receives Stop has performed; stopReturned records that Stop has
returned to its caller. -/
structure SysState where
  numWorkers : Nat
  pending : Nat
  serviced : Nat
  cancelFired : Bool
  halted : Nat
  acks : Nat
  acksRead : Nat
  stopReturned : Bool
deriving DecidableEq

/-- One scheduler step of the running system. A still-running worker may
select either a pending message or, once the supervisor goroutine has seen
the root cancellation, its halt signal — the Go select chooses arbitrarily
among ready cases, so both steps are enabled at once. Stop is the sequence
fireCancel, numWorkers readAck steps, stopRet. -/
inductive SysStep : SysState → SysState → Prop where
  | service (s : SysState) (h1 : s.halted < s.numWorkers) (h2 : 0 < s.pending) :
      SysStep s { s with pending := s.pending - 1, serviced := s.serviced + 1 }
  | haltWorker (s : SysState) (h1 : s.cancelFired = true)
      (h2 : s.halted < s.numWorkers) :
      SysStep s { s with halted := s.halted + 1, acks := s.acks + 1 }
  | fireCancel (s : SysState) (h : s.cancelFired = false) :
      SysStep s { s with cancelFired := true }
  | readAck (s : SysState) (h1 : s.cancelFired = true) (h2 : 0 < s.acks)
      (h3 : s.acksRead < s.numWorkers) (h4 : s.stopReturned = false) :
      SysStep s { s with acks := s.acks - 1, acksRead := s.acksRead + 1 }
  | stopRet (s : SysState) (h1 : s.cancelFired = true)
      (h2 : s.acksRead = s.numWorkers) (h3 : s.stopReturned = false) :
      SysStep s { s with stopReturned := true }

/-- Reachability under scheduler steps. -/
def Reaches : SysState → SysState → Prop := Relation.ReflTransGen SysStep

/-- The invariant tying Stop to worker shutdown: acknowledgments read plus
acknowledgments still buffered equal the workers halted, never more workers
halt than exist, and Stop returns only after the cancellation fired and all
acknowledgments were read. -/
def SysInv (s : SysState) : Prop :=
  s.acksRead + s.acks = s.halted ∧ s.halted ≤ s.numWorkers ∧
  (s.stopReturned = true → s.acksRead = s.numWorkers ∧ s.cancelFired = true)

theorem sysInv_step {s s2 : SysState} (hinv : SysInv s) (hstep : SysStep s s2) :
    SysInv s2 := by
  obtain ⟨ha, hb, hc⟩ := hinv
  cases hstep with
  | service h1 h2 => exact ⟨ha, hb, hc⟩
  | haltWorker h1 h2 =>
    refine ⟨?_, ?_, ?_⟩
    · show s.acksRead + (s.acks + 1) = s.halted + 1
      omega
    · show s.halted + 1 ≤ s.numWorkers
      omega
    · intro hr
      exact ⟨(hc hr).1, h1⟩
  | fireCancel h =>
    exact ⟨ha, hb, fun hr => ⟨(hc hr).1, rfl⟩⟩
  | readAck h1 h2 h3 h4 =>
    refine ⟨?_, hb, ?_⟩
    · show s.acksRead + 1 + (s.acks - 1) = s.halted
      omega
    · intro hr
      have hr2 : s.stopReturned = true := hr
      rw [h4] at hr2
      exact Bool.noConfusion hr2
  | stopRet h1 h2 h3 =>
    exact ⟨ha, hb, fun _ => ⟨h2, h1⟩⟩

theorem sysInv_reaches {s s2 : SysState} (hinv : SysInv s) (hr : Reaches s s2) :
    SysInv s2 := by
  induction hr with
  | refl => exact hinv
  | tail h hstep ih => exact sysInv_step ih hstep

/-- The start configuration the counterexample runs from: one worker and
one message already enqueued by a blocked caller. -/
def c10init : SysState :=
  ⟨1, 1, 0, false, 0, 0, 0, false⟩

/-- The end configuration of the counterexample schedule: Stop has
returned, the worker has halted, and the message is still pending. -/
def c10final : SysState :=
  ⟨1, 1, 0, true, 1, 0, 1, true⟩

theorem c10_schedule : Reaches c10init c10final := by
  have e1 : ({ c10init with cancelFired := true } : SysState) =
      ⟨1, 1, 0, true, 0, 0, 0, false⟩ := by decide
  have s1 : SysStep c10init ⟨1, 1, 0, true, 0, 0, 0, false⟩ :=
    e1 ▸ SysStep.fireCancel c10init rfl
  have e2 : ({ (⟨1, 1, 0, true, 0, 0, 0, false⟩ : SysState) with
      halted := 1, acks := 1 } : SysState) = ⟨1, 1, 0, true, 1, 1, 0, false⟩ := by decide
  have s2 : SysStep (⟨1, 1, 0, true, 0, 0, 0, false⟩ : SysState)
      ⟨1, 1, 0, true, 1, 1, 0, false⟩ :=
    e2 ▸ SysStep.haltWorker ⟨1, 1, 0, true, 0, 0, 0, false⟩ rfl (by decide)
  have e3 : ({ (⟨1, 1, 0, true, 1, 1, 0, false⟩ : SysState) with
      acks := 0, acksRead := 1 } : SysState) = ⟨1, 1, 0, true, 1, 0, 1, false⟩ := by decide
  have s3 : SysStep (⟨1, 1, 0, true, 1, 1, 0, false⟩ : SysState)
      ⟨1, 1, 0, true, 1, 0, 1, false⟩ :=
    e3 ▸ SysStep.readAck ⟨1, 1, 0, true, 1, 1, 0, false⟩ rfl (by decide)
      (by decide) rfl
  have e4 : ({ (⟨1, 1, 0, true, 1, 0, 1, false⟩ : SysState) with
      stopReturned := true } : SysState) = c10final := by decide
  have s4 : SysStep (⟨1, 1, 0, true, 1, 0, 1, false⟩ : SysState) c10final :=
    e4 ▸ SysStep.stopRet ⟨1, 1, 0, true, 1, 0, 1, false⟩ rfl (by decide) rfl
  exact .tail (.tail (.tail (.single s1) s2) s3) s4

/-- C10 counterexample: from one worker with one message already enqueued,
the scheduler may deliver the halt signal before the message — the select
in the worker loop chooses arbitrarily among ready cases — after which Stop
returns with the message never serviced and its caller blocked forever. -/
theorem c10_counterexample :
    Reaches c10init c10final ∧ c10final.stopReturned = true ∧
    c10final.pending = 1 ∧ c10final.serviced = 0 ∧
    ¬ (∀ s, Reaches c10init s → s.stopReturned = true → s.pending = 0) := by
  refine ⟨c10_schedule, rfl, rfl, rfl, ?_⟩
  intro hall
  have := hall c10final c10_schedule rfl
  simp [c10final] at this

/-- C10 amended: from any start configuration with no worker yet halted, no
acknowledgment produced or consumed and Stop not yet returned, once Stop
has returned the root cancellation has fired, one acknowledgment per worker
has been read, and every worker has halted — but pending messages need not
have been serviced. -/
theorem c10_amended (s0 s : SysState)
    (h0 : s0.halted = 0 ∧ s0.acks = 0 ∧ s0.acksRead = 0 ∧ s0.stopReturned = false)
    (hr : Reaches s0 s) (hs : s.stopReturned = true) :
    s.cancelFired = true ∧ s.acksRead = s.numWorkers ∧
    s.halted = s.numWorkers := by
  obtain ⟨h1, h2, h3, h4⟩ := h0
  have hinv0 : SysInv s0 := ⟨by omega, by omega, by rw [h4]; intro hh; cases hh⟩
  obtain ⟨ha, hb, hc⟩ := sysInv_reaches hinv0 hr
  obtain ⟨hread, hfired⟩ := hc hs
  exact ⟨hfired, hread, by omega⟩

/-- C10 witness: the counterexample schedule itself reaches a returned Stop
with the worker halted. -/
theorem c10_amended_witness :
    (c10init.halted = 0 ∧ c10init.acks = 0 ∧ c10init.acksRead = 0 ∧
      c10init.stopReturned = false) ∧
    Reaches c10init c10final ∧ c10final.stopReturned = true ∧
    (c10final.cancelFired = true ∧ c10final.acksRead = c10final.numWorkers ∧
      c10final.halted = c10final.numWorkers) :=
  ⟨⟨rfl, rfl, rfl, rfl⟩, c10_schedule, rfl,
    c10_amended c10init c10final ⟨rfl, rfl, rfl, rfl⟩ c10_schedule rfl⟩

end Backdrop
